import Mathlib

/-!
Shallow embedding of the Django-MDN library catalog application
(src/catalog/models.py, src/catalog/views.py, src/catalog/admin.py).

Dates are modelled as integers (a day count); the current date is passed
explicitly as a parameter wherever the source calls date.today().
Primary keys (including the UUID primary key of BookInstance) are
modelled as natural numbers.  Single-character status codes and
two-letter language codes are modelled as strings, matching the
CharField representation in the source.
-/

abbrev Date := Int

/-- Embeds the Genre model of src/catalog/models.py: a name with Meta
ordering by name. -/
structure Genre where
  id : Nat
  name : String
deriving Repr, DecidableEq

/-- Embeds the Author model of src/catalog/models.py: first/last name and
optional birth/death dates, Meta ordering by last_name then first_name. -/
structure Author where
  id : Nat
  first_name : String
  last_name : String
  date_of_birth : Option Date
  date_of_death : Option Date
deriving Repr, DecidableEq

/-- Embeds the Book model of src/catalog/models.py: title, nullable
foreign key to Author (on_delete=SET_NULL), summary, isbn
(max_length=13, unique=True), and a many-to-many genre relation
modelled as a list of Genre ids. -/
structure Book where
  id : Nat
  title : String
  author : Option Nat
  summary : String
  isbn : String
  genre : List Nat
deriving Repr, DecidableEq

/-- Embeds the BookInstance model of src/catalog/models.py: UUID primary
key (modelled as Nat), nullable foreign key to Book
(on_delete=RESTRICT), imprint, optional due_back date, nullable
borrower (a User id, on_delete=SET_NULL), one-character status code
(choices m/o/a/r, default m) and language code (choices en/ru/de/fr,
default en). -/
structure BookInstance where
  id : Nat
  book : Option Nat
  imprint : String
  due_back : Option Date
  borrower : Option Nat
  status : String
  language : String
deriving Repr, DecidableEq

/-- The database state: one table per model of src/catalog/models.py. -/
structure Catalog where
  genres : List Genre
  authors : List Author
  books : List Book
  instances : List BookInstance
deriving Repr, DecidableEq

/-- Embeds BookInstance.is_overdue (src/catalog/models.py lines 93-96):
the Python body is bool(self.due_back and date.today() > self.due_back).
In Python, None is falsy and every date object is truthy, so the
conjunction short-circuits to False exactly when due_back is None and
otherwise evaluates date.today() > self.due_back. -/
def BookInstance.is_overdue (today : Date) (self : BookInstance) : Bool :=
  match self.due_back with
  | none => false
  | some d => today > d

/-- Models the framework URL reversal (django.urls.reverse): the route
name followed by the rendered positional arguments.  The routing table
itself is framework-generated (spec section 6); only the argument list
matters for the claims below. -/
def reverse (route : String) (args : List String) : String :=
  route ++ "/" ++ String.intercalate "/" args

/-- Embeds the Python expression str(id) appearing in
Book.get_absolute_url (src/catalog/models.py line 36).  The bare name id
there resolves to the global builtin function id, not to self.id, and
str() of that builtin renders the constant text below, independent of
any book. -/
def strOfBuiltinId : String := "<built-in function id>"

/-- Embeds Book.get_absolute_url (src/catalog/models.py lines 35-36):
reverse('book-detail', args=[str(id)]). -/
def Book.get_absolute_url (_self : Book) : String :=
  reverse "book-detail" [strOfBuiltinId]

/-- Runs a fallible catalog operation: on error the transaction rolls
back and the state is unchanged. -/
def runOp (c : Catalog) (r : Except String Catalog) : Catalog :=
  match r with
  | .error _ => c
  | .ok c' => c'

/-- Embeds deletion of a Book under the on_delete=RESTRICT setting of
BookInstance.book (src/catalog/models.py line 48): if any BookInstance
references the book, the delete raises RestrictedError; otherwise the
book row is removed. -/
def deleteBook (c : Catalog) (bid : Nat) : Except String Catalog :=
  if c.instances.any (fun bi => bi.book = some bid) then
    .error "RestrictedError"
  else
    .ok { c with books := c.books.filter (fun b => b.id ≠ bid) }

/-- Embeds deletion of an Author under the on_delete=SET_NULL setting of
Book.author (src/catalog/models.py line 26): the author row is removed
and every Book referencing it has its author foreign key set to null. -/
def deleteAuthor (c : Catalog) (aid : Nat) : Catalog :=
  { c with
    authors := c.authors.filter (fun a => a.id ≠ aid),
    books := c.books.map (fun b =>
      if b.author = some aid then { b with author := none } else b) }

/-- C1: For every BookInstance, is_overdue is true iff due_back is set
(non-null) and is strictly before the current date; in particular it is
false whenever due_back is null. -/
theorem is_overdue_iff_due_back_past (today : Date) (bi : BookInstance) :
    (bi.is_overdue today = true ↔ ∃ d, bi.due_back = some d ∧ d < today) ∧
    (bi.due_back = none → bi.is_overdue today = false) := by
  refine ⟨?_, ?_⟩
  · cases h : bi.due_back with
    | none => simp [BookInstance.is_overdue, h]
    | some d =>
      simp only [BookInstance.is_overdue, h, decide_eq_true_eq, Option.some.injEq]
      constructor
      · intro hd
        exact ⟨d, rfl, hd⟩
      · rintro ⟨d', hd', hlt⟩
        exact hd' ▸ hlt
  · intro h
    simp [BookInstance.is_overdue, h]

/-- Witness for C1: a concrete instance due on day 3 is overdue on day 5,
and a concrete instance with a null due date is not overdue. -/
theorem is_overdue_iff_due_back_past_witness :
    (BookInstance.is_overdue 5
      { id := 1, book := none, imprint := "x", due_back := some 3,
        borrower := none, status := "o", language := "en" } = true) ∧
    (BookInstance.is_overdue 5
      { id := 2, book := none, imprint := "x", due_back := none,
        borrower := none, status := "a", language := "en" } = false) := by
  refine ⟨?_, ?_⟩
  · exact (is_overdue_iff_due_back_past 5 _).1.mpr ⟨3, rfl, by decide⟩
  · exact (is_overdue_iff_due_back_past 5 _).2 rfl

/-- C10: Book.get_absolute_url does not depend on the book it is called
on: for any two Book records it returns identical URLs, because the
source interpolates str(id) of the global builtin id function rather
than the book's own id. -/
theorem get_absolute_url_constant (b1 b2 : Book) :
    b1.get_absolute_url = b2.get_absolute_url ∧
    b1.get_absolute_url = reverse "book-detail" [strOfBuiltinId] := by
  exact ⟨rfl, rfl⟩

/-- C3: Deleting a Book referenced by at least one BookInstance is
rejected (the operation errors and the applied state keeps the book and
all instances unchanged); deletion succeeds exactly when no BookInstance
references the book, and then only that book row is removed. -/
theorem deleteBook_restrict (c : Catalog) (bid : Nat) :
    ((∃ bi ∈ c.instances, bi.book = some bid) →
      deleteBook c bid = Except.error "RestrictedError" ∧
      runOp c (deleteBook c bid) = c) ∧
    ((∀ bi ∈ c.instances, bi.book ≠ some bid) →
      ∃ c', deleteBook c bid = Except.ok c' ∧
        c'.books = c.books.filter (fun b => b.id ≠ bid) ∧
        c'.instances = c.instances ∧
        c'.authors = c.authors ∧
        c'.genres = c.genres) := by
  constructor
  · rintro ⟨bi, hmem, hbook⟩
    have hany : c.instances.any (fun bi => bi.book = some bid) = true := by
      rw [List.any_eq_true]
      exact ⟨bi, hmem, by simp [hbook]⟩
    constructor
    · simp [deleteBook, hany]
    · simp [deleteBook, hany, runOp]
  · intro hnone
    have hany : c.instances.any (fun bi => bi.book = some bid) = false := by
      rw [List.any_eq_false]
      intro bi hmem
      simp [hnone bi hmem]
    refine ⟨{ c with books := c.books.filter (fun b => b.id ≠ bid) },
      ?_, rfl, rfl, rfl, rfl⟩
    simp [deleteBook, hany]

/-- Witness for C3: in a catalog with one book and one instance
referencing it, the delete is rejected; in a catalog whose only
instance references no book, the delete succeeds. -/
theorem deleteBook_restrict_witness :
    (deleteBook
      { genres := [], authors := [],
        books := [{ id := 1, title := "t", author := none, summary := "s",
                    isbn := "i", genre := [] }],
        instances := [{ id := 5, book := some 1, imprint := "x",
                        due_back := none, borrower := none, status := "a",
                        language := "en" }] } 1
      = Except.error "RestrictedError") ∧
    (∃ c', deleteBook
      { genres := [], authors := [],
        books := [{ id := 1, title := "t", author := none, summary := "s",
                    isbn := "i", genre := [] }],
        instances := [{ id := 5, book := none, imprint := "x",
                        due_back := none, borrower := none, status := "a",
                        language := "en" }] } 1
      = Except.ok c' ∧ c'.books = []) := by
  constructor
  · exact ((deleteBook_restrict _ 1).1 ⟨_, List.mem_singleton.mpr rfl, rfl⟩).1
  · obtain ⟨c', heq, hbooks, -, -, -⟩ :=
      (deleteBook_restrict
        { genres := [], authors := [],
          books := [{ id := 1, title := "t", author := none, summary := "s",
                      isbn := "i", genre := [] }],
          instances := [{ id := 5, book := none, imprint := "x",
                          due_back := none, borrower := none, status := "a",
                          language := "en" }] } 1).2
        (by intro bi hmem; simp at hmem; simp [hmem])
    exact ⟨c', heq, by simp [hbooks]⟩

/-- C6: Deleting an Author sets the author foreign key of every Book
that referenced them to null rather than deleting those books: the book
table keeps the same rows in order, each book keeps its id, title,
summary, isbn and genres, books that referenced the author get author =
null, all other books keep their author, and the genre and instance
tables are untouched. -/
theorem deleteAuthor_sets_null (c : Catalog) (aid : Nat) :
    List.Forall₂ (fun b b' =>
        b'.id = b.id ∧ b'.title = b.title ∧ b'.summary = b.summary ∧
        b'.isbn = b.isbn ∧ b'.genre = b.genre ∧
        b'.author = (if b.author = some aid then none else b.author))
      c.books (deleteAuthor c aid).books ∧
    (deleteAuthor c aid).genres = c.genres ∧
    (deleteAuthor c aid).instances = c.instances ∧
    (∀ a ∈ (deleteAuthor c aid).authors, a.id ≠ aid) := by
  refine ⟨?_, rfl, rfl, ?_⟩
  · show List.Forall₂ _ c.books (c.books.map _)
    rw [List.forall₂_map_right_iff]
    rw [List.forall₂_same]
    intro b _
    by_cases h : b.author = some aid <;> simp [h]
  · intro a hmem
    have := List.of_mem_filter hmem
    simpa using this

/-- Comparison used by order_by('due_back') and the BookInstance Meta
ordering ['due_back'] (src/catalog/models.py line 85): ascending dates
with null dates first (ascending database order places NULL before
every value). -/
def dueBackLe (a b : Option Date) : Bool :=
  match a, b with
  | none, _ => true
  | some _, none => false
  | some x, some y => x ≤ y

theorem dueBackLe_trans (a b c : Option Date) (hab : dueBackLe a b = true)
    (hbc : dueBackLe b c = true) : dueBackLe a c = true := by
  cases a <;> cases b <;> cases c <;> simp_all [dueBackLe]
  exact le_trans hab hbc

theorem dueBackLe_total (a b : Option Date) :
    (dueBackLe a b || dueBackLe b a) = true := by
  cases a <;> cases b <;> simp [dueBackLe]
  exact le_total _ _

/-- The order_by('due_back') step of the two loan views: sort the
filtered rows by due date ascending. -/
def orderByDueBack (l : List BookInstance) : List BookInstance :=
  l.mergeSort (fun x y => dueBackLe x.due_back y.due_back)

theorem orderByDueBack_sorted (l : List BookInstance) :
    (orderByDueBack l).Pairwise
      (fun x y => dueBackLe x.due_back y.due_back = true) :=
  List.sorted_mergeSort
    (fun a b c3 h1 h2 => dueBackLe_trans a.due_back b.due_back c3.due_back h1 h2)
    (fun a b => dueBackLe_total a.due_back b.due_back) l

theorem orderByDueBack_perm (l : List BookInstance) :
    (orderByDueBack l).Perm l :=
  List.mergeSort_perm l _

/-- Embeds LoanedBooksByUserListView.get_queryset (src/catalog/views.py
lines 81-86): BookInstance.objects.filter(borrower=self.request.user)
.filter(status__exact='o').order_by('due_back'). -/
def loanedBooksByUser_get_queryset (userId : Nat) (c : Catalog) :
    List BookInstance :=
  orderByDueBack
    ((c.instances.filter (fun bi => bi.borrower = some userId)).filter
      (fun bi => bi.status = "o"))

/-- Embeds BorrowedBooksListView.get_queryset (src/catalog/views.py
lines 96-101): BookInstance.objects.all().filter(status__exact='o')
.order_by('due_back'). -/
def borrowedBooks_get_queryset (c : Catalog) : List BookInstance :=
  orderByDueBack (c.instances.filter (fun bi => bi.status = "o"))

/-- C4: Both loan-list views return exactly the instances with status
'o' (the per-user view restricted further to the requesting borrower),
as a permutation of the corresponding filter of the instance table, and
both results are sorted by due_back ascending. -/
theorem loan_list_views_exact (userId : Nat) (c : Catalog) :
    (∀ bi, bi ∈ loanedBooksByUser_get_queryset userId c ↔
      bi ∈ c.instances ∧ bi.status = "o" ∧ bi.borrower = some userId) ∧
    ((loanedBooksByUser_get_queryset userId c).Perm
      (c.instances.filter
        (fun bi => bi.status = "o" ∧ bi.borrower = some userId))) ∧
    ((loanedBooksByUser_get_queryset userId c).Pairwise
      (fun x y => dueBackLe x.due_back y.due_back = true)) ∧
    (∀ bi, bi ∈ borrowedBooks_get_queryset c ↔
      bi ∈ c.instances ∧ bi.status = "o") ∧
    ((borrowedBooks_get_queryset c).Perm
      (c.instances.filter (fun bi => bi.status = "o"))) ∧
    ((borrowedBooks_get_queryset c).Pairwise
      (fun x y => dueBackLe x.due_back y.due_back = true)) := by
  refine ⟨?_, ?_, orderByDueBack_sorted _, ?_, orderByDueBack_perm _,
    orderByDueBack_sorted _⟩
  · intro bi
    constructor
    · intro h
      have h' := (orderByDueBack_perm _).mem_iff.mp h
      simp only [List.mem_filter, decide_eq_true_eq] at h'
      exact ⟨h'.1.1, h'.2, h'.1.2⟩
    · intro ⟨h1, h2, h3⟩
      refine (orderByDueBack_perm _).mem_iff.mpr ?_
      simp only [List.mem_filter, decide_eq_true_eq]
      exact ⟨⟨h1, h3⟩, h2⟩
  · refine (orderByDueBack_perm _).trans (List.Perm.of_eq ?_)
    rw [List.filter_filter]
    congr 1
    funext bi
    simp [Bool.and_comm]
  · intro bi
    rw [borrowedBooks_get_queryset, (orderByDueBack_perm _).mem_iff]
    simp [List.mem_filter]

/-- Embeds the Author Meta ordering (src/catalog/models.py lines
106-107): ordering = ['last_name', 'first_name'], i.e. lexicographic by
last name then first name. -/
def authorOrderLe (a b : Author) : Bool :=
  a.last_name < b.last_name ||
    (a.last_name = b.last_name && a.first_name ≤ b.first_name)

theorem authorOrderLe_trans (a b c : Author) (hab : authorOrderLe a b = true)
    (hbc : authorOrderLe b c = true) : authorOrderLe a c = true := by
  simp only [authorOrderLe, Bool.or_eq_true, Bool.and_eq_true,
    decide_eq_true_eq] at *
  rcases hab with h1 | ⟨h1, h1'⟩ <;> rcases hbc with h2 | ⟨h2, h2'⟩
  · exact Or.inl (lt_trans h1 h2)
  · exact Or.inl (h2 ▸ h1)
  · exact Or.inl (h1 ▸ h2)
  · exact Or.inr ⟨h1.trans h2, le_trans h1' h2'⟩

theorem authorOrderLe_total (a b : Author) :
    (authorOrderLe a b || authorOrderLe b a) = true := by
  simp only [authorOrderLe, Bool.or_eq_true, Bool.and_eq_true,
    decide_eq_true_eq]
  rcases lt_trichotomy a.last_name b.last_name with h | h | h
  · exact Or.inl (Or.inl h)
  · rcases le_total a.first_name b.first_name with h' | h'
    · exact Or.inl (Or.inr ⟨h, h'⟩)
    · exact Or.inr (Or.inr ⟨h.symm, h'⟩)
  · exact Or.inr (Or.inl h)

/-- Embeds the Genre Meta ordering (src/catalog/models.py line 14):
ordering = ['name']. -/
def genreOrderLe (a b : Genre) : Bool :=
  a.name ≤ b.name

/-- Embeds BookListView.get_queryset (src/catalog/views.py lines 50-51):
Book.objects.all().  The Book model declares no Meta ordering, so the
result is the book table in its natural (stored) order, unchanged. -/
def bookList_get_queryset (c : Catalog) : List Book :=
  c.books

/-- AuthorListView (src/catalog/views.py lines 65-68) has no
get_queryset override, so it lists Author.objects.all() under the
model's Meta ordering ['last_name', 'first_name']. -/
def authorList_queryset (c : Catalog) : List Author :=
  c.authors.mergeSort authorOrderLe

/-- A Genre listing under the Genre Meta ordering ['name']. -/
def genreList_queryset (c : Catalog) : List Genre :=
  c.genres.mergeSort genreOrderLe

/-- A BookInstance listing under the BookInstance Meta ordering
['due_back'] (src/catalog/models.py line 85). -/
def bookInstanceList_queryset (c : Catalog) : List BookInstance :=
  orderByDueBack c.instances

/-- paginate_by of BookListView (src/catalog/views.py line 44). -/
def BookListView_paginate_by : Nat := 10

/-- paginate_by of AuthorListView (src/catalog/views.py line 67). -/
def AuthorListView_paginate_by : Nat := 10

/-- Models the framework paginator: page k (zero-based here) of a list
is the slice of pageSize rows starting at pageSize * k. -/
def pageSlice (pageSize k : Nat) (l : List α) : List α :=
  (l.drop (pageSize * k)).take pageSize

/-- C7: The Book and Author list views paginate at 10 items per page
(every page slice has at most 10 rows), Authors are listed sorted by
last name then first name, Genres sorted by name, BookInstances sorted
by due date, and the Book list is the book table in its natural order.
Each sorted listing is a permutation of its table. -/
theorem list_views_pagination_and_ordering (c : Catalog) (k : Nat) :
    BookListView_paginate_by = 10 ∧
    AuthorListView_paginate_by = 10 ∧
    (pageSlice BookListView_paginate_by k (bookList_get_queryset c)).length
      ≤ 10 ∧
    (pageSlice AuthorListView_paginate_by k (authorList_queryset c)).length
      ≤ 10 ∧
    bookList_get_queryset c = c.books ∧
    (authorList_queryset c).Pairwise (fun a b => authorOrderLe a b = true) ∧
    (authorList_queryset c).Perm c.authors ∧
    (genreList_queryset c).Pairwise (fun a b => genreOrderLe a b = true) ∧
    (genreList_queryset c).Perm c.genres ∧
    (bookInstanceList_queryset c).Pairwise
      (fun x y => dueBackLe x.due_back y.due_back = true) ∧
    (bookInstanceList_queryset c).Perm c.instances := by
  refine ⟨rfl, rfl, ?_, ?_, rfl, ?_, List.mergeSort_perm _ _, ?_,
    List.mergeSort_perm _ _, orderByDueBack_sorted _, orderByDueBack_perm _⟩
  · simp [pageSlice, BookListView_paginate_by]
  · simp [pageSlice, AuthorListView_paginate_by]
  · exact List.sorted_mergeSort authorOrderLe_trans authorOrderLe_total _
  · refine List.sorted_mergeSort ?_ ?_ _
    · intro a b c3 h1 h2
      simp only [genreOrderLe, decide_eq_true_eq] at *
      exact le_trans h1 h2
    · intro a b
      simp only [genreOrderLe, Bool.or_eq_true, decide_eq_true_eq]
      exact le_total _ _

/-- HTTP method of a request to renew_book_librarian; the source only
distinguishes POST from everything else. -/
inductive HttpMethod where
  | GET
  | POST
deriving Repr, DecidableEq

/-- The request seen by renew_book_librarian: method, the caller's
authentication flag and permission strings (checked by the
login_required and permission_required decorators), and the
renewal_date field of the submitted form data, already parsed (none
when the field is absent or does not parse as a date). -/
structure RenewRequest where
  method : HttpMethod
  isAuthenticated : Bool
  perms : List String
  renewal_date : Option Date
deriving Repr, DecidableEq

/-- The form rendered by renew_book_librarian: either the bound form
rebuilt from the request data (the invalid-POST path) or the unbound
form carrying the proposed initial renewal date (the GET path). -/
inductive RenewForm where
  | bound (renewal_date : Option Date)
  | withInitial (renewal_date : Date)
deriving Repr, DecidableEq

/-- The response of renew_book_librarian: redirect to login
(login_required on an unauthenticated caller), HTTP 403
(permission_required with raise_exception=True), HTTP 404
(get_object_or_404), redirect on success, or a render of the form
template. -/
inductive RenewResponse where
  | redirectToLogin
  | permissionDenied
  | notFound
  | redirect (url : String)
  | renderForm (form : RenewForm)
deriving Repr, DecidableEq

/-- Modelled from the spec: RenewBookForm lives in src/catalog/forms.py,
which is not among the source files; the spec says the view must
"accept a new due date ..., validate it, and persist it" and that the
exact validation rule is "unspecified in the excerpt beyond 'valid
date'".  The form is therefore modelled as: is_valid() holds iff the
renewal_date field parsed to a date and that date satisfies an
arbitrary date-validity predicate vd, over which all renewal theorems
are universally quantified. -/
def renewFormIsValid (vd : Date → Bool) (renewal_date : Option Date) :
    Bool :=
  match renewal_date with
  | none => false
  | some d => vd d

/-- Embeds renew_book_librarian (src/catalog/views.py lines 104-138)
together with its decorators: login_required redirects unauthenticated
callers, permission_required('catalog.can_mark_returned',
raise_exception=True) rejects callers without that permission, both
before the view body runs; then get_object_or_404 looks up the
BookInstance by primary key; on a POST with a valid form the instance's
due_back is set to the cleaned renewal_date and saved, followed by a
redirect to the borrowed-books list; on an invalid POST the bound form
is re-rendered; on any other method the unbound form with
initial renewal_date = today + 3 weeks (21 days) is rendered.  The
state is returned unchanged on every path except the successful save. -/
def renew_book_librarian (vd : Date → Bool) (today : Date)
    (req : RenewRequest) (pk : Nat) (c : Catalog) :
    Catalog × RenewResponse :=
  if req.isAuthenticated = false then
    (c, .redirectToLogin)
  else if (req.perms.contains "catalog.can_mark_returned") = false then
    (c, .permissionDenied)
  else
    match c.instances.find? (fun bi => bi.id = pk) with
    | none => (c, .notFound)
    | some _ =>
      match req.method with
      | .POST =>
        if renewFormIsValid vd req.renewal_date then
          ({ c with instances := c.instances.map (fun bi =>
              if bi.id = pk then { bi with due_back := req.renewal_date }
              else bi) },
           .redirect (reverse "borrowed-books" []))
        else
          (c, .renderForm (.bound req.renewal_date))
      | .GET =>
        (c, .renderForm (.withInitial (today + 21)))

/-- C5: On a GET request by an authenticated caller holding
can_mark_returned, for an existing instance, renew_book_librarian
leaves the state unchanged and renders the unbound form whose proposed
renewal date is the current date plus exactly three weeks (21 days). -/
theorem renew_get_proposes_three_weeks (vd : Date → Bool) (today : Date)
    (req : RenewRequest) (pk : Nat) (c : Catalog)
    (hauth : req.isAuthenticated = true)
    (hperm : req.perms.contains "catalog.can_mark_returned" = true)
    (hmethod : req.method = HttpMethod.GET)
    (hfound : ∃ bi ∈ c.instances, bi.id = pk) :
    renew_book_librarian vd today req pk c
      = (c, RenewResponse.renderForm (RenewForm.withInitial (today + 21))) := by
  obtain ⟨bi, hmem, hid⟩ := hfound
  have hp : "catalog.can_mark_returned" ∈ req.perms := by
    simpa using hperm
  rcases hfind : c.instances.find? (fun bi => bi.id = pk) with _ | bi0
  · exfalso
    have := List.find?_eq_none.mp hfind bi hmem
    simp [hid] at this
  · simp [renew_book_librarian, hauth, hp, hfind, hmethod]

/-- Witness for C5: a concrete permitted GET on day 100 proposes day
121 as the renewal date. -/
theorem renew_get_proposes_three_weeks_witness :
    renew_book_librarian (fun _ => true) 100
      { method := HttpMethod.GET, isAuthenticated := true,
        perms := ["catalog.can_mark_returned"], renewal_date := none }
      7
      { genres := [], authors := [], books := [],
        instances := [{ id := 7, book := none, imprint := "x",
                        due_back := some 90, borrower := some 2,
                        status := "o", language := "en" }] }
      = ({ genres := [], authors := [], books := [],
           instances := [{ id := 7, book := none, imprint := "x",
                           due_back := some 90, borrower := some 2,
                           status := "o", language := "en" }] },
         RenewResponse.renderForm (RenewForm.withInitial 121)) := by
  exact renew_get_proposes_three_weeks (fun _ => true) 100 _ 7 _
    rfl (by decide) rfl
    ⟨{ id := 7, book := none, imprint := "x", due_back := some 90,
       borrower := some 2, status := "o", language := "en" },
     by simp, rfl⟩

/-- C2: renew_book_librarian can change the catalog only when the
caller is authenticated, holds can_mark_returned, sends a POST whose
renewal date parses and validates, and the instance exists; every other
path (unauthenticated, unpermitted, missing instance, non-POST, invalid
date) returns the state unchanged, so rejection of unauthorized callers
happens before any mutation.  When all those conditions hold, the view
redirects and every instance carrying the target primary key has its
due_back set to the submitted date. -/
theorem renew_persists_only_when_authorized_and_valid (vd : Date → Bool)
    (today : Date) (req : RenewRequest) (pk : Nat) (c : Catalog) :
    ((renew_book_librarian vd today req pk c).1 ≠ c →
      req.isAuthenticated = true ∧
      req.perms.contains "catalog.can_mark_returned" = true ∧
      req.method = HttpMethod.POST ∧
      (∃ d, req.renewal_date = some d ∧ vd d = true) ∧
      (∃ bi ∈ c.instances, bi.id = pk)) ∧
    (req.isAuthenticated = true →
      req.perms.contains "catalog.can_mark_returned" = true →
      req.method = HttpMethod.POST →
      ∀ d, req.renewal_date = some d → vd d = true →
      ∀ bi, bi ∈ c.instances → bi.id = pk →
        (renew_book_librarian vd today req pk c).2
          = RenewResponse.redirect (reverse "borrowed-books" []) ∧
        (∀ bi', bi' ∈ (renew_book_librarian vd today req pk c).1.instances →
          bi'.id = pk → bi'.due_back = some d) ∧
        (∃ bi', bi' ∈ (renew_book_librarian vd today req pk c).1.instances ∧
          bi'.id = pk ∧ bi'.due_back = some d)) := by
  constructor
  · intro hne
    cases hauth : req.isAuthenticated with
    | false => exact absurd (by simp [renew_book_librarian, hauth]) hne
    | true =>
    cases hperm : req.perms.contains "catalog.can_mark_returned" with
    | false =>
      have hp : "catalog.can_mark_returned" ∉ req.perms := by
        simpa using hperm
      exact absurd (by simp [renew_book_librarian, hauth, hp]) hne
    | true =>
    have hp : "catalog.can_mark_returned" ∈ req.perms := by
      simpa using hperm
    rcases hfind : c.instances.find? (fun bi => bi.id = pk) with _ | bi0
    · exact absurd (by simp [renew_book_librarian, hauth, hp, hfind]) hne
    · cases hmethod : req.method with
      | GET =>
        exact absurd
          (by simp [renew_book_librarian, hauth, hp, hfind, hmethod]) hne
      | POST =>
        cases hdate : req.renewal_date with
        | none =>
          exact absurd (by
            simp [renew_book_librarian, hauth, hp, hfind, hmethod,
              renewFormIsValid, hdate]) hne
        | some d =>
          cases hvd : vd d with
          | false =>
            exact absurd (by
              simp [renew_book_librarian, hauth, hp, hfind, hmethod,
                renewFormIsValid, hdate, hvd]) hne
          | true =>
            refine ⟨rfl, rfl, rfl, ⟨d, rfl, hvd⟩,
              bi0, List.mem_of_find?_eq_some hfind, ?_⟩
            have := List.find?_some hfind
            simpa using this
  · intro hauth hperm hmethod d hdate hvd bi hmem hid
    have hp : "catalog.can_mark_returned" ∈ req.perms := by
      simpa using hperm
    rcases hfind : c.instances.find? (fun bi => bi.id = pk) with _ | bi0
    · exfalso
      have := List.find?_eq_none.mp hfind bi hmem
      simp [hid] at this
    · have hvalid : renewFormIsValid vd req.renewal_date = true := by
        simp [renewFormIsValid, hdate, hvd]
      have hrun : renew_book_librarian vd today req pk c
          = ({ c with instances := c.instances.map (fun bi =>
                if bi.id = pk then { bi with due_back := req.renewal_date }
                else bi) },
             RenewResponse.redirect (reverse "borrowed-books" [])) := by
        simp [renew_book_librarian, hauth, hp, hfind, hmethod, hvalid]
      refine ⟨by rw [hrun], ?_, ?_⟩
      · intro bi' hmem' hid'
        rw [hrun] at hmem'
        simp only [List.mem_map] at hmem'
        obtain ⟨orig, horig, heq⟩ := hmem'
        by_cases h : orig.id = pk
        · rw [← heq]
          simp [h, hdate]
        · rw [← heq] at hid'
          simp [h] at hid'
      · refine ⟨{ bi with due_back := some d }, ?_, hid, rfl⟩
        rw [hrun]
        simp only [List.mem_map]
        exact ⟨bi, hmem, by simp [hid, hdate]⟩

/-- Witness for C2: a concrete authorized, valid POST on instance 7 is
accepted and answered with the redirect to the borrowed-books list. -/
theorem renew_persists_only_when_authorized_and_valid_witness :
    (renew_book_librarian (fun _ => true) 100
      { method := HttpMethod.POST, isAuthenticated := true,
        perms := ["catalog.can_mark_returned"], renewal_date := some 120 }
      7
      { genres := [], authors := [], books := [],
        instances := [{ id := 7, book := none, imprint := "x",
                        due_back := some 90, borrower := some 2,
                        status := "o", language := "en" }] }).2
      = RenewResponse.redirect (reverse "borrowed-books" []) := by
  exact ((renew_persists_only_when_authorized_and_valid
      (fun _ => true) 100
      { method := HttpMethod.POST, isAuthenticated := true,
        perms := ["catalog.can_mark_returned"], renewal_date := some 120 }
      7
      { genres := [], authors := [], books := [],
        instances := [{ id := 7, book := none, imprint := "x",
                        due_back := some 90, borrower := some 2,
                        status := "o", language := "en" }] }).2
    rfl (by decide) rfl 120 rfl rfl
    { id := 7, book := none, imprint := "x", due_back := some 90,
      borrower := some 2, status := "o", language := "en" }
    (by simp) rfl).1

/-- C9: A successful renewal (authenticated, permitted, valid POST on an
existing instance) changes only the due_back of the rows carrying the
target primary key: the book, author and genre tables are untouched,
the instance table keeps the same rows in order, every row keeps its
id, book, imprint, borrower, status and language, rows with a different
id also keep their due_back, and the targeted rows get the submitted
date. -/
theorem renew_success_frame (vd : Date → Bool) (today : Date)
    (req : RenewRequest) (pk : Nat) (c : Catalog)
    (hauth : req.isAuthenticated = true)
    (hperm : req.perms.contains "catalog.can_mark_returned" = true)
    (hmethod : req.method = HttpMethod.POST)
    (d : Date) (hdate : req.renewal_date = some d) (hvd : vd d = true) :
    (renew_book_librarian vd today req pk c).1.books = c.books ∧
    (renew_book_librarian vd today req pk c).1.authors = c.authors ∧
    (renew_book_librarian vd today req pk c).1.genres = c.genres ∧
    List.Forall₂ (fun x x' =>
        x'.id = x.id ∧ x'.book = x.book ∧ x'.imprint = x.imprint ∧
        x'.borrower = x.borrower ∧ x'.status = x.status ∧
        x'.language = x.language ∧
        (x.id ≠ pk → x'.due_back = x.due_back) ∧
        (x.id = pk → x'.due_back = some d))
      c.instances (renew_book_librarian vd today req pk c).1.instances := by
  have hp : "catalog.can_mark_returned" ∈ req.perms := by
    simpa using hperm
  rcases hfind : c.instances.find? (fun bi => bi.id = pk) with _ | bi0
  · have hrun : (renew_book_librarian vd today req pk c).1 = c := by
      simp [renew_book_librarian, hauth, hp, hfind]
    rw [hrun]
    refine ⟨rfl, rfl, rfl, ?_⟩
    rw [List.forall₂_same]
    intro x hx
    have hnot := List.find?_eq_none.mp hfind x hx
    simp only [decide_eq_true_eq] at hnot
    exact ⟨rfl, rfl, rfl, rfl, rfl, rfl, fun _ => rfl, fun h => absurd h hnot⟩
  · have hvalid : renewFormIsValid vd req.renewal_date = true := by
      simp [renewFormIsValid, hdate, hvd]
    have hrun : (renew_book_librarian vd today req pk c).1
        = { c with instances := c.instances.map (fun bi =>
              if bi.id = pk then { bi with due_back := req.renewal_date }
              else bi) } := by
      simp [renew_book_librarian, hauth, hp, hfind, hmethod, hvalid]
    rw [hrun]
    refine ⟨rfl, rfl, rfl, ?_⟩
    rw [List.forall₂_map_right_iff, List.forall₂_same]
    intro x hx
    by_cases h : x.id = pk
    · simp [h, hdate]
    · simp [h]

/-- Witness for C9: in the concrete successful renewal of instance 7,
the other row (id 8) keeps its due_back and the target row receives the
submitted date. -/
theorem renew_success_frame_witness :
    List.Forall₂ (fun (x x' : BookInstance) =>
        x'.id = x.id ∧ x'.book = x.book ∧ x'.imprint = x.imprint ∧
        x'.borrower = x.borrower ∧ x'.status = x.status ∧
        x'.language = x.language ∧
        (x.id ≠ 7 → x'.due_back = x.due_back) ∧
        (x.id = 7 → x'.due_back = some 120))
      [{ id := 7, book := none, imprint := "x", due_back := some 90,
         borrower := some 2, status := "o", language := "en" },
       { id := 8, book := none, imprint := "y", due_back := some 95,
         borrower := some 3, status := "o", language := "en" }]
      (renew_book_librarian (fun _ => true) 100
        { method := HttpMethod.POST, isAuthenticated := true,
          perms := ["catalog.can_mark_returned"], renewal_date := some 120 }
        7
        { genres := [], authors := [], books := [],
          instances :=
            [{ id := 7, book := none, imprint := "x", due_back := some 90,
               borrower := some 2, status := "o", language := "en" },
             { id := 8, book := none, imprint := "y", due_back := some 95,
               borrower := some 3, status := "o", language := "en" }] }).1.instances := by
  exact (renew_success_frame (fun _ => true) 100
    { method := HttpMethod.POST, isAuthenticated := true,
      perms := ["catalog.can_mark_returned"], renewal_date := some 120 }
    7
    { genres := [], authors := [], books := [],
      instances :=
        [{ id := 7, book := none, imprint := "x", due_back := some 90,
           borrower := some 2, status := "o", language := "en" },
         { id := 8, book := none, imprint := "y", due_back := some 95,
           borrower := some 3, status := "o", language := "en" }] }
    rfl (by decide) rfl 120 rfl rfl).2.2.2

/-- Field-level validation of Book.isbn (src/catalog/models.py lines
28-29): CharField('ISBN', max_length=13, unique=True).  max_length
bounds the length from above only; strings shorter than 13 characters
pass validation. -/
def isbnMaxLengthOk (s : String) : Bool :=
  s.length ≤ 13

/-- Embeds creation of a Book through the framework's model validation
(BookCreate in src/catalog/views.py, fields='__all__'): the isbn must
pass the max_length validator and be unique across the catalog, the
primary key must be fresh, and on success the row is appended. -/
def createBook (c : Catalog) (b : Book) : Except String Catalog :=
  if isbnMaxLengthOk b.isbn = false then .error "maxlength"
  else if c.books.any (fun b2 => b2.isbn = b.isbn) then .error "unique"
  else if c.books.any (fun b2 => b2.id = b.id) then .error "pk"
  else .ok { c with books := c.books ++ [b] }

/-- Embeds an update of a Book's isbn through the same model validation
(BookAdmin / an update on the Book model): the new isbn must pass
max_length and be unique among the other books (the row being updated
is excluded from its own uniqueness check); on success the row carrying
the target primary key gets the new isbn. -/
def updateBookIsbn (c : Catalog) (bid : Nat) (newIsbn : String) :
    Except String Catalog :=
  if isbnMaxLengthOk newIsbn = false then .error "maxlength"
  else if c.books.any (fun b2 => b2.id ≠ bid ∧ b2.isbn = newIsbn) then
    .error "unique"
  else .ok { c with books := c.books.map (fun b =>
    if b.id = bid then { b with isbn := newIsbn } else b) }

/-- The isbn invariant the schema actually enforces: every book's isbn
has at most 13 characters, and no two book rows share an isbn. -/
def isbnInvariant (c : Catalog) : Prop :=
  (∀ b ∈ c.books, b.isbn.length ≤ 13) ∧
  c.books.Pairwise (fun b1 b2 => b1.isbn ≠ b2.isbn)

/-- Primary-key uniqueness of the book table, enforced by the schema. -/
def booksPkUnique (c : Catalog) : Prop :=
  c.books.Pairwise (fun b1 b2 => b1.id ≠ b2.id)

/-- Counterexample to C8 as stated: the schema only bounds the isbn
length from above (max_length=13), so a create with the 3-character
isbn "123" is accepted from the empty catalog, reaching a state whose
single book has an isbn that is not a 13-character string. -/
theorem createBook_accepts_short_isbn :
    createBook { genres := [], authors := [], books := [], instances := [] }
      { id := 1, title := "t", author := none, summary := "s",
        isbn := "123", genre := [] }
    = Except.ok
        { genres := [], authors := [],
          books := [{ id := 1, title := "t", author := none, summary := "s",
                      isbn := "123", genre := [] }],
          instances := [] } ∧
    List.all
        [({ id := 1, title := "t", author := none, summary := "s",
            isbn := "123", genre := [] } : Book)]
        (fun b => b.isbn.length = 13) = false := by
  exact ⟨rfl, by decide⟩

/-- C8 amended: in every catalog where each book's isbn has at most 13
characters and isbns are pairwise distinct (the invariant the schema's
max_length=13 and unique=True actually enforce), any successful
createBook or updateBookIsbn yields a catalog satisfying the same
invariant, and keeps primary keys unique. -/
theorem isbn_invariant_preserved (c : Catalog) (b : Book) (bid : Nat)
    (s : String) (hinv : isbnInvariant c) (hpk : booksPkUnique c) :
    (∀ c', createBook c b = Except.ok c' →
      isbnInvariant c' ∧ booksPkUnique c') ∧
    (∀ c', updateBookIsbn c bid s = Except.ok c' →
      isbnInvariant c' ∧ booksPkUnique c') := by
  obtain ⟨hlen, hdistinct⟩ := hinv
  constructor
  · intro c' hok
    rw [createBook] at hok
    split at hok
    next => exact absurd hok (by simp)
    next h1 =>
    split at hok
    next => exact absurd hok (by simp)
    next h2 =>
    split at hok
    next => exact absurd hok (by simp)
    next h3 =>
    obtain rfl := Except.ok.inj hok
    have hnewlen : b.isbn.length ≤ 13 := by
      have h1' : isbnMaxLengthOk b.isbn = true := by
        cases h : isbnMaxLengthOk b.isbn
        · exact absurd h h1
        · rfl
      simpa [isbnMaxLengthOk] using h1'
    have hno_isbn : ∀ b2 ∈ c.books, b2.isbn ≠ b.isbn := by
      intro b2 hb2
      have := List.any_eq_false.mp (eq_false_of_ne_true h2) b2 hb2
      simpa using this
    have hno_id : ∀ b2 ∈ c.books, b2.id ≠ b.id := by
      intro b2 hb2
      have := List.any_eq_false.mp (eq_false_of_ne_true h3) b2 hb2
      simpa using this
    refine ⟨⟨?_, ?_⟩, ?_⟩
    · intro x hx
      rcases List.mem_append.mp hx with hx | hx
      · exact hlen x hx
      · rw [List.mem_singleton.mp hx]
        exact hnewlen
    · rw [List.pairwise_append]
      exact ⟨hdistinct, List.pairwise_singleton _ _,
        fun x hx y hy => (List.mem_singleton.mp hy) ▸ hno_isbn x hx⟩
    · rw [booksPkUnique]
      simp only [List.pairwise_append]
      exact ⟨hpk, List.pairwise_singleton _ _,
        fun x hx y hy => (List.mem_singleton.mp hy) ▸ hno_id x hx⟩
  · intro c' hok
    rw [updateBookIsbn] at hok
    split at hok
    next => exact absurd hok (by simp)
    next h1 =>
    split at hok
    next => exact absurd hok (by simp)
    next h2 =>
    obtain rfl := Except.ok.inj hok
    have hslen : s.length ≤ 13 := by
      have h1' : isbnMaxLengthOk s = true := by
        cases h : isbnMaxLengthOk s
        · exact absurd h h1
        · rfl
      simpa [isbnMaxLengthOk] using h1'
    have hno : ∀ b2 ∈ c.books, b2.id ≠ bid → b2.isbn ≠ s := by
      intro b2 hb2
      have := List.any_eq_false.mp (eq_false_of_ne_true h2) b2 hb2
      simp only [decide_eq_true_eq, not_and] at this
      simpa using this
    refine ⟨⟨?_, ?_⟩, ?_⟩
    · intro x hx
      rw [List.mem_map] at hx
      obtain ⟨orig, horig, heq⟩ := hx
      by_cases h : orig.id = bid
      · rw [← heq]
        simpa [h] using hslen
      · rw [← heq]
        simpa [h] using hlen orig horig
    · rw [List.pairwise_map]
      refine List.Pairwise.imp_of_mem ?_ (hdistinct.and hpk)
      intro x y hx hy hxy
      obtain ⟨hisbn, hid⟩ := hxy
      by_cases h1' : x.id = bid <;> by_cases h2' : y.id = bid
      · exact absurd (h1'.trans h2'.symm) hid
      · simp only [h1', h2', if_true, if_false]
        intro heq
        exact hno y hy h2' heq.symm
      · simp only [h1', h2', if_true, if_false]
        intro heq
        exact hno x hx h1' heq
      · simpa [h1', h2'] using hisbn
    · rw [booksPkUnique, List.pairwise_map]
      refine List.Pairwise.imp_of_mem ?_ hpk
      intro x y hx hy hxy
      by_cases h1' : x.id = bid <;> by_cases h2' : y.id = bid <;>
        simp only [h1', h2', if_true, if_false]
      · exact fun _ => hxy (h1'.trans h2'.symm)
      · exact fun h => hxy (h1'.trans h)
      · exact fun h => hxy (h.trans h2'.symm)
      · exact hxy

/-- Witness for the amended C8: starting from the empty catalog (which
satisfies the invariant), the concrete create of a 13-character isbn is
accepted and the resulting catalog satisfies the invariant again. -/
theorem isbn_invariant_preserved_witness :
    isbnInvariant
      { genres := [], authors := [],
        books := [{ id := 1, title := "t", author := none, summary := "s",
                    isbn := "9781234567897", genre := [] }],
        instances := [] } := by
  exact ((isbn_invariant_preserved
      { genres := [], authors := [], books := [], instances := [] }
      { id := 1, title := "t", author := none, summary := "s",
        isbn := "9781234567897", genre := [] }
      0 ""
      ⟨by simp, List.Pairwise.nil⟩ List.Pairwise.nil).1
    _ rfl).1
